import Mathlib

-- Shallow embedding of the mini-chatgpt backend core:
-- the LLM adapters (mockAdapter.ts, ollamaAdapter.ts), the conversation
-- service (ConversationService in the backend services), and the boundary
-- error handler (middleware/errorHandler.ts).
--
-- Machine conventions: JavaScript strings are `String`; JS `undefined`
-- for an optional JSON field is `Option`; a thrown JS error is carried in
-- `Except` as a `JsError` (name + message); timestamps and ids are `Nat`
-- drawn from a strictly increasing per-store clock, mirroring the cuid
-- sortability invariant (ids sort consistently with creation time).

-- A JavaScript Error value: `name` (e.g. "AbortError") and `message`.
structure JsError where
  name : String
  message : String
deriving DecidableEq

-- JS `String.prototype.includes`, written over character lists so the
-- kernel can evaluate it.
def charsHaveLead : List Char → List Char → Bool
  | _, [] => true
  | [], _ :: _ => false
  | c :: cs, p :: ps => c == p && charsHaveLead cs ps

def charsInclude : List Char → List Char → Bool
  | [], pat => pat.isEmpty
  | c :: cs, pat => charsHaveLead (c :: cs) pat || charsInclude cs pat

def strIncludes (s pat : String) : Bool := charsInclude s.data pat.data

-- JS `x || default` on an optional numeric config field (note: 0 is falsy).
def jsOrNat : Option Nat → Nat → Nat
  | some v, d => if v == 0 then d else v
  | none, d => d

-- Adapter configuration, built as in the two adapter constructors:
-- timeout = config.timeout || 12000, maxRetries = config.maxRetries || 2,
-- retryDelayMs = config.retryDelayMs || 1000.
structure RetryConfig where
  timeout : Nat
  maxRetries : Nat
  retryDelayMs : Nat
deriving DecidableEq

def mkRetryConfig (timeout maxRetries retryDelayMs : Option Nat) : RetryConfig :=
  { timeout := jsOrNat timeout 12000
    maxRetries := jsOrNat maxRetries 2
    retryDelayMs := jsOrNat retryDelayMs 1000 }

-- Parsed JSON body of the mock backend: `{ completion?: string }`
-- (the code casts without checking, so the field may be absent).
structure MockBody where
  completion : Option String
deriving DecidableEq

-- Parsed JSON body of the Ollama backend:
-- `{ response?: string, completion?: string }`.
structure OllamaBody where
  response : Option String
  completion : Option String
deriving DecidableEq

-- What one outbound fetch attempt can come back with, before the
-- adapter-specific normalization runs.
inductive FetchOutcome (β : Type) where
  | abortTimeout : FetchOutcome β
  | reject : JsError → FetchOutcome β
  | responseBadJson : Nat → FetchOutcome β
  | response : Nat → β → FetchOutcome β
deriving DecidableEq

def abortError : JsError := ⟨"AbortError", "The operation was aborted"⟩

def badJsonError : JsError := ⟨"SyntaxError", "Unexpected end of JSON input"⟩

-- `response.ok`: HTTP status in the 200-299 range.
def responseOk (status : Nat) : Bool := 200 ≤ status && status ≤ 299

-- One attempt of MockLlmAdapter.fetchWithRetry, up to the catch block:
-- throw on timeout-abort / network rejection / non-ok status, otherwise
-- return `{ completion: data.completion }` with no field check.
def mockAttempt : FetchOutcome MockBody → Except JsError (Option String)
  | FetchOutcome.abortTimeout => Except.error abortError
  | FetchOutcome.reject e => Except.error e
  | FetchOutcome.responseBadJson status =>
      if responseOk status then Except.error badJsonError
      else Except.error ⟨"Error", "Mock LLM returned " ++ toString status⟩
  | FetchOutcome.response status body =>
      if responseOk status then Except.ok body.completion
      else Except.error ⟨"Error", "Mock LLM returned " ++ toString status⟩

-- JS truthiness of an optional string (undefined and "" are falsy).
def jsTruthy : Option String → Bool
  | some s => !(s == "")
  | none => false

-- JS `data.response || data.completion`.
def jsOrStr (a b : Option String) : Option String := if jsTruthy a then a else b

def ollamaMissingError : JsError := ⟨"Error", "Ollama response missing completion field"⟩

-- One attempt of OllamaLlmAdapter.fetchWithRetry, up to the catch block:
-- like the mock, but `const completion = data.response || data.completion`
-- followed by `if (!completion) throw`.
def ollamaAttempt : FetchOutcome OllamaBody → Except JsError String
  | FetchOutcome.abortTimeout => Except.error abortError
  | FetchOutcome.reject e => Except.error e
  | FetchOutcome.responseBadJson status =>
      if responseOk status then Except.error badJsonError
      else Except.error ⟨"Error", "Ollama returned " ++ toString status⟩
  | FetchOutcome.response status body =>
      if responseOk status then
        match jsOrStr body.response body.completion with
        | some s => if s == "" then Except.error ollamaMissingError else Except.ok s
        | none => Except.error ollamaMissingError
      else Except.error ⟨"Error", "Ollama returned " ++ toString status⟩

-- The catch-block retry classification shared by both adapters.
def isTimeout (e : JsError) : Bool := e.name == "AbortError"

def is500Error (e : JsError) : Bool := strIncludes e.message "500"

def retryable (e : JsError) : Bool := isTimeout e || is500Error e

-- fetchWithRetry's recursion, indexed by the remaining retry budget
-- `rem = maxRetries - attempt`, so that the source guard
-- `attempt < maxRetries` is exactly the pattern `rem = r + 1` (with
-- `rem = 0` every error propagates).  The returned list records the
-- backoff delay slept before each retry, in order.
def fetchWithRetryGo (cfg : RetryConfig) (step : Nat → Except JsError α) :
    Nat → Nat → Except JsError α × List Nat
  | attempt, 0 =>
    match step attempt with
    | Except.ok a => (Except.ok a, [])
    | Except.error e => (Except.error e, [])
  | attempt, r + 1 =>
    match step attempt with
    | Except.ok a => (Except.ok a, [])
    | Except.error e =>
      if retryable e then
        let rest := fetchWithRetryGo cfg step (attempt + 1) r
        (rest.1, cfg.retryDelayMs * 2 ^ attempt :: rest.2)
      else (Except.error e, [])

-- `fetchWithRetry(content, attempt)` of both adapters, generic in the
-- per-attempt normalization (`step n` is what attempt `n` throws/returns).
def fetchWithRetry (cfg : RetryConfig) (step : Nat → Except JsError α) (attempt : Nat) :
    Except JsError α × List Nat :=
  fetchWithRetryGo cfg step attempt (cfg.maxRetries - attempt)

-- The two adapters' fetchWithRetry, driven by an oracle giving the raw
-- outcome of each numbered attempt.
def mockFetchWithRetry (cfg : RetryConfig) (oracle : Nat → FetchOutcome MockBody)
    (attempt : Nat) : Except JsError (Option String) × List Nat :=
  fetchWithRetry cfg (fun n => mockAttempt (oracle n)) attempt

def ollamaFetchWithRetry (cfg : RetryConfig) (oracle : Nat → FetchOutcome OllamaBody)
    (attempt : Nat) : Except JsError String × List Nat :=
  fetchWithRetry cfg (fun n => ollamaAttempt (oracle n)) attempt

-- `role: content` lines joined by newlines, as built by both `complete`
-- implementations.
structure ChatMsg where
  role : String
  content : String
deriving DecidableEq

def flattenHistory (msgs : List ChatMsg) : String :=
  String.intercalate "\n" (msgs.map (fun m => m.role ++ ": " ++ m.content))

-- ConversationService state.  The persistence store keeps the message
-- table as a list in creation order (createdAt ascending); `clock` is the
-- source of fresh ids and timestamps, mirroring the cuid invariant that
-- ids sort consistently with creation time.  The Prisma scan
-- `orderBy createdAt desc` is therefore `List.reverse` on this
-- representation.

structure Msg where
  id : Nat
  conversationId : Nat
  role : String
  content : String
  createdAt : Nat
deriving DecidableEq

structure Convo where
  id : Nat
  title : String
  createdAt : Nat
  lastMessageAt : Option Nat
deriving DecidableEq

structure Store where
  conversations : List Convo
  messages : List Msg
  clock : Nat
deriving DecidableEq

-- ConversationService instance state: the store plus the in-memory
-- `conversationCounter`.
structure SvcState where
  store : Store
  counter : Nat
deriving DecidableEq

-- `prisma.message.findMany({ where: { conversationId }, orderBy asc })`.
def convMsgsAsc (s : Store) (cid : Nat) : List Msg :=
  s.messages.filter (fun m => m.conversationId == cid)

-- Same scan, `orderBy: { createdAt: 'desc' }`.
def findManyDesc (s : Store) (cid : Nat) : List Msg :=
  (convMsgsAsc s cid).reverse

def notFoundError : JsError := ⟨"Error", "Conversation not found"⟩

-- Prisma's delete on a missing record throws a known-request error.
def prismaDeleteMissing : JsError :=
  ⟨"PrismaClientKnownRequestError", "Record to delete does not exist."⟩

-- ConversationService.initCounter: counter := prisma.conversation.count().
def initCounter (store : Store) : SvcState :=
  { store := store, counter := store.conversations.length }

-- ConversationService.createConversation.
def createConversation (svc : SvcState) : SvcState × Convo :=
  let n := svc.counter + 1
  let conv : Convo :=
    { id := svc.store.clock
      title := "Conversation #" ++ toString n
      createdAt := svc.store.clock
      lastMessageAt := none }
  ({ store :=
       { conversations := svc.store.conversations ++ [conv]
         messages := svc.store.messages
         clock := svc.store.clock + 1 }
     counter := n }, conv)

-- One row of the listConversations response.
structure ConvSummary where
  id : Nat
  title : String
  createdAt : Nat
  lastMessageAt : Option Nat
deriving DecidableEq

-- ConversationService.listConversations: conversations newest-created
-- first, each annotated with `messages[0]?.createdAt || null` where
-- messages is the desc-ordered take-1 include.
def listConversations (s : Store) : List ConvSummary :=
  s.conversations.reverse.map (fun conv =>
    { id := conv.id
      title := conv.title
      createdAt := conv.createdAt
      lastMessageAt := ((findManyDesc s conv.id).head?).map (fun m => m.createdAt) })

structure PageInfo where
  nextCursor : Option Nat
  prevCursor : Option Nat
deriving DecidableEq

structure ConversationPage where
  id : Nat
  title : String
  messages : List Msg
  pageInfo : PageInfo
deriving DecidableEq

-- The cursor-filtered desc scan done by getConversation:
-- `where.id = { lte: messagesCursor }` when a cursor is supplied.
def fetchFiltered (s : Store) (cid : Nat) (messagesCursor : Option Nat) : List Msg :=
  match messagesCursor with
  | some c => (findManyDesc s cid).filter (fun m => m.id ≤ c)
  | none => findManyDesc s cid

-- getConversation's locals, lifted to named definitions so theorems can
-- speak about them: `take(limit + 1)` fetch, hasMore, the page, and the
-- two cursors of pageInfo.

def fetchedOf (s : Store) (cid : Nat) (messagesCursor : Option Nat) (limit : Nat) : List Msg :=
  (fetchFiltered s cid messagesCursor).take (limit + 1)

def hasMoreOf (s : Store) (cid : Nat) (messagesCursor : Option Nat) (limit : Nat) : Bool :=
  limit < (fetchedOf s cid messagesCursor limit).length

def pageMessagesOf (s : Store) (cid : Nat) (messagesCursor : Option Nat) (limit : Nat) :
    List Msg :=
  if hasMoreOf s cid messagesCursor limit then (fetchedOf s cid messagesCursor limit).take limit
  else fetchedOf s cid messagesCursor limit

def nextCursorOf (s : Store) (cid : Nat) (messagesCursor : Option Nat) (limit : Nat) :
    Option Nat :=
  if hasMoreOf s cid messagesCursor limit then
    ((fetchedOf s cid messagesCursor limit)[limit]?).map (fun m => m.id)
  else none

-- The prevCursor branch mirrors the second findMany:
-- `id: { gt: pageMessages[last]?.id }` ordered asc, take 1; with an empty
-- page Prisma drops the undefined `gt` bound and the scan returns the
-- oldest message of the conversation.
def prevCursorOf (s : Store) (cid : Nat) (messagesCursor : Option Nat) (limit : Nat) :
    Option Nat :=
  match messagesCursor with
  | none => none
  | some _ =>
    match (pageMessagesOf s cid messagesCursor limit).getLast? with
    | some oldest =>
        (((convMsgsAsc s cid).filter (fun m => oldest.id < m.id)).head?).map (fun m => m.id)
    | none => ((convMsgsAsc s cid).head?).map (fun m => m.id)

-- ConversationService.getConversation (cursor pagination).
def getConversation (s : Store) (cid : Nat) (messagesCursor : Option Nat) (limit : Nat) :
    Except JsError ConversationPage :=
  match s.conversations.find? (fun c => c.id == cid) with
  | none => Except.error notFoundError
  | some conv =>
    Except.ok
      { id := conv.id
        title := conv.title
        messages := (pageMessagesOf s cid messagesCursor limit).reverse
        pageInfo :=
          { nextCursor := nextCursorOf s cid messagesCursor limit
            prevCursor := prevCursorOf s cid messagesCursor limit } }

-- ConversationService.deleteConversation: prisma delete (throws on a
-- missing record) with ON DELETE CASCADE on messages.
def deleteConversation (s : Store) (cid : Nat) : Except JsError Store :=
  if s.conversations.any (fun c => c.id == cid) then
    Except.ok
      { conversations := s.conversations.filter (fun c => !(c.id == cid))
        messages := s.messages.filter (fun m => !(m.conversationId == cid))
        clock := s.clock }
  else Except.error prismaDeleteMissing

-- Service-level delete: the counter is untouched.
def SvcState.deleteConv (svc : SvcState) (cid : Nat) : Except JsError SvcState :=
  (deleteConversation svc.store cid).map (fun st => { store := st, counter := svc.counter })

-- The user message persisted at the start of sendMessage.
def userMsgOf (s : Store) (cid : Nat) (content : String) : Msg :=
  { id := s.clock, conversationId := cid, role := "user", content := content,
    createdAt := s.clock }

-- The history handed to the adapter: prior turns (ascending) plus the new
-- user turn.
def historyFor (s : Store) (cid : Nat) (content : String) : List ChatMsg :=
  (convMsgsAsc s cid).map (fun m => ChatMsg.mk m.role m.content) ++
    [ChatMsg.mk "user" content]

-- ConversationService.sendMessage, with the awaited adapter call
-- abstracted as a function from the assembled history to its settled
-- result (the LlmAdapter interface).
def sendMessage (s : Store) (cid : Nat) (content : String)
    (adapter : List ChatMsg → Except JsError String) :
    Store × Except JsError (Msg × Msg) :=
  match s.conversations.find? (fun c => c.id == cid) with
  | none => (s, Except.error notFoundError)
  | some _ =>
    let userMessage := userMsgOf s cid content
    let s1 : Store :=
      { conversations := s.conversations
        messages := s.messages ++ [userMessage]
        clock := s.clock + 1 }
    match adapter (historyFor s cid content) with
    | Except.error e => (s1, Except.error e)
    | Except.ok completion =>
      let assistantMessage : Msg :=
        { id := s1.clock, conversationId := cid, role := "assistant",
          content := completion, createdAt := s1.clock }
      let s2 : Store :=
        { conversations := s1.conversations
          messages := s1.messages ++ [assistantMessage]
          clock := s1.clock + 1 }
      let s3 : Store :=
        { s2 with conversations := s2.conversations.map (fun c =>
            if c.id == cid then { c with lastMessageAt := some assistantMessage.createdAt }
            else c) }
      (s3, Except.ok (userMessage, assistantMessage))

-- The client pagination loop for claim C2: fetch a page, follow
-- nextCursor, stop when it is null (fuel bounds the loop).
def paginate (s : Store) (cid : Nat) (limit : Nat) : Nat → Option Nat → List (List Msg)
  | 0, _ => []
  | fuel + 1, cursor =>
    match getConversation s cid cursor limit with
    | Except.error _ => []
    | Except.ok page =>
      match page.pageInfo.nextCursor with
      | none => [page.messages]
      | some c => page.messages :: paginate s cid limit fuel (some c)

-- A later insert of one message (what a concurrent sendMessage appends).
def appendMsg (s : Store) (m : Msg) : Store :=
  { conversations := s.conversations, messages := s.messages ++ [m], clock := s.clock }

-- Ids strictly increase along the ascending scan (the cuid sortability
-- invariant of reachable stores).
def SortedAscIds (l : List Msg) : Prop := l.Pairwise (fun a b => a.id < b.id)

-- The boundary error handler (middleware/errorHandler.ts).
structure HttpResponse where
  status : Nat
  error : String
deriving DecidableEq

inductive AppError where
  | zod : String → AppError
  | js : JsError → AppError
deriving DecidableEq

def errorHandler : AppError → HttpResponse
  | AppError.zod _ => ⟨400, "Validation error"⟩
  | AppError.js e =>
    if isTimeout e || strIncludes e.message "timeout" then ⟨504, "Upstream error/timeout"⟩
    else if strIncludes e.message "500" then ⟨502, "Upstream error/timeout"⟩
    else ⟨500, "Internal server error"⟩

-- Concrete material used by counterexamples and witnesses.

def cfgDefault : RetryConfig := mkRetryConfig none none none

-- Attempt 1 answers HTTP 503 (a 5xx server error); later attempts would
-- succeed if ever made.
def oracle503 : Nat → FetchOutcome MockBody := fun n =>
  if n == 0 then FetchOutcome.response 503 ⟨some "recovered"⟩
  else FetchOutcome.response 200 ⟨some "ok"⟩

-- Every attempt is aborted (what a triggered abort signal produces).
def oracleAbort : Nat → FetchOutcome MockBody := fun _ => FetchOutcome.abortTimeout

-- Attempt 1 returns a 2xx response with a malformed JSON body.
def oracleBadBody : Nat → FetchOutcome MockBody := fun _ => FetchOutcome.responseBadJson 200

-- Every attempt answers HTTP 500.
def oracle500 : Nat → FetchOutcome MockBody := fun _ => FetchOutcome.response 500 ⟨none⟩

def exMsg0 : Msg := { id := 0, conversationId := 100, role := "user", content := "m0", createdAt := 0 }
def exMsg1 : Msg := { id := 1, conversationId := 100, role := "assistant", content := "m1", createdAt := 1 }
def exMsg2 : Msg := { id := 2, conversationId := 100, role := "user", content := "m2", createdAt := 2 }
def exMsg3 : Msg := { id := 3, conversationId := 100, role := "assistant", content := "m3", createdAt := 3 }

def exConv : Convo := { id := 100, title := "Conversation #1", createdAt := 0, lastMessageAt := none }

-- One conversation with four messages.
def exStore4 : Store :=
  { conversations := [exConv], messages := [exMsg0, exMsg1, exMsg2, exMsg3], clock := 104 }

-- One conversation with a single prior exchange.
def exStoreW : Store :=
  { conversations := [exConv], messages := [exMsg0, exMsg1], clock := 102 }

def emptyStore : Store := { conversations := [], messages := [], clock := 0 }

def failAdapter : List ChatMsg → Except JsError String :=
  fun _ => Except.error ⟨"Error", "LLM down"⟩

def okAdapter : List ChatMsg → Except JsError String :=
  fun _ => Except.ok "Hi there"

-- Claim C5 scenario: two creations, delete the first, restart the service
-- (initCounter runs again over the surviving store), create once more.
def svcA : SvcState := initCounter emptyStore
def svcB : SvcState := (createConversation svcA).1
def convB : Convo := (createConversation svcA).2
def svcC : SvcState := (createConversation svcB).1
def convC : Convo := (createConversation svcB).2
def storeD : Store :=
  { conversations := [{ id := 1, title := "Conversation #2", createdAt := 1, lastMessageAt := none }]
    messages := []
    clock := 2 }
def svcE : SvcState := initCounter storeD
def convF : Convo := (createConversation svcE).2

-- A message appended later than every message of exStore4 (id beyond any
-- pagination cursor in use).
def mW : Msg := { id := 9, conversationId := 100, role := "user", content := "later", createdAt := 9 }

-- Service state after: create on svcC, then delete conversation 0
-- (used to witness the amended C5 claim).
def svcC2 : SvcState :=
  { store :=
      { conversations :=
          [ { id := 1, title := "Conversation #2", createdAt := 1, lastMessageAt := none },
            { id := 2, title := "Conversation #3", createdAt := 2, lastMessageAt := none } ]
        messages := []
        clock := 3 }
    counter := 3 }

-- Unfolding lemmas for fetchWithRetryGo.

theorem go_eq_ok (cfg : RetryConfig) (step : Nat → Except JsError α) (attempt rem : Nat)
    (a : α) (h : step attempt = Except.ok a) :
    fetchWithRetryGo cfg step attempt rem = (Except.ok a, []) := by
  cases rem <;> simp [fetchWithRetryGo, h]

theorem go_eq_err_zero (cfg : RetryConfig) (step : Nat → Except JsError α) (attempt : Nat)
    (e : JsError) (h : step attempt = Except.error e) :
    fetchWithRetryGo cfg step attempt 0 = (Except.error e, []) := by
  simp [fetchWithRetryGo, h]

theorem go_eq_err_retry (cfg : RetryConfig) (step : Nat → Except JsError α) (attempt r : Nat)
    (e : JsError) (h : step attempt = Except.error e)
    (hc : retryable e = true) :
    fetchWithRetryGo cfg step attempt (r + 1) =
      ((fetchWithRetryGo cfg step (attempt + 1) r).1,
       cfg.retryDelayMs * 2 ^ attempt :: (fetchWithRetryGo cfg step (attempt + 1) r).2) := by
  simp [fetchWithRetryGo, h, hc]

theorem go_eq_err_stop (cfg : RetryConfig) (step : Nat → Except JsError α) (attempt r : Nat)
    (e : JsError) (h : step attempt = Except.error e)
    (hc : retryable e = false) :
    fetchWithRetryGo cfg step attempt (r + 1) = (Except.error e, []) := by
  simp [fetchWithRetryGo, h, hc]

-- The retry trace: at most `rem` retries, exact exponential backoff
-- delays, and the surfaced outcome is the last attempt's outcome.
theorem go_spec (cfg : RetryConfig) (step : Nat → Except JsError α) :
    ∀ rem attempt,
      (fetchWithRetryGo cfg step attempt rem).2.length ≤ rem ∧
      (fetchWithRetryGo cfg step attempt rem).2 =
        (List.range (fetchWithRetryGo cfg step attempt rem).2.length).map
          (fun k => cfg.retryDelayMs * 2 ^ (attempt + k)) ∧
      (∀ e, (fetchWithRetryGo cfg step attempt rem).1 = Except.error e →
        step (attempt + (fetchWithRetryGo cfg step attempt rem).2.length) = Except.error e) := by
  intro rem
  induction rem with
  | zero =>
    intro attempt
    cases hs : step attempt with
    | ok a => simp [go_eq_ok cfg step attempt 0 a hs]
    | error e => simp [go_eq_err_zero cfg step attempt e hs, hs]
  | succ r ih =>
    intro attempt
    cases hs : step attempt with
    | ok a => simp [go_eq_ok cfg step attempt (r + 1) a hs]
    | error e =>
      cases hc : retryable e with
      | false => simp [go_eq_err_stop cfg step attempt r e hs hc, hs]
      | true =>
        have ih1 := (ih (attempt + 1)).1
        have ih2 := (ih (attempt + 1)).2.1
        have ih3 := (ih (attempt + 1)).2.2
        rw [go_eq_err_retry cfg step attempt r e hs hc]
        refine ⟨by simpa using Nat.succ_le_succ ih1, ?_, ?_⟩
        · simp only [List.length_cons, List.range_succ_eq_map, List.map_cons, List.map_map]
          congr 1
          rw [ih2]
          simp only [List.length_map, List.length_range]
          apply List.map_congr_left
          intro k hk
          simp only [Function.comp_apply]
          have hx : attempt + 1 + k = attempt + k.succ := by omega
          rw [hx]
        · intro e2 he2
          have he3 := ih3 e2 he2
          have hx : attempt + ((fetchWithRetryGo cfg step (attempt + 1) r).2.length + 1) =
              attempt + 1 + (fetchWithRetryGo cfg step (attempt + 1) r).2.length := by omega
          simpa [hx] using he3

/-- Claim C3 counterexample: attempt 1 ends in HTTP 503 — a 5xx-class server
error with retries remaining — yet the code performs zero retries and
propagates the error, because its check `error.message.includes("500")` only
recognizes status 500. -/
theorem retry_5xx_counterexample :
    (500 ≤ 503 ∧ 503 < 600) ∧
    0 < cfgDefault.maxRetries ∧
    oracle503 0 = FetchOutcome.response 503 ⟨some "recovered"⟩ ∧
    mockFetchWithRetry cfgDefault oracle503 0 =
      (Except.error ⟨"Error", "Mock LLM returned 503"⟩, []) :=
  ⟨by omega, by decide, by decide, by rfl⟩

/-- Claim C3 (amended): an attempt's error is retried iff it is an abort
(timeout) or its message contains the substring "500" — effectively HTTP 500
only, not the whole 5xx class — and the retry budget is not exhausted; every
other error (malformed body, connection refused, any other HTTP failure
including 502/503/504) propagates immediately with zero retries. -/
theorem retry_condition_amended (cfg : RetryConfig) (step : Nat → Except JsError α)
    (attempt : Nat) (e : JsError) (h : step attempt = Except.error e) :
    ((fetchWithRetry cfg step attempt).2 ≠ [] ↔
      (retryable e = true ∧ attempt < cfg.maxRetries)) ∧
    (retryable e = false ∨ cfg.maxRetries ≤ attempt →
      fetchWithRetry cfg step attempt = (Except.error e, [])) := by
  unfold fetchWithRetry
  rcases Nat.lt_or_ge attempt cfg.maxRetries with hlt | hge
  · obtain ⟨r, hr⟩ : ∃ r, cfg.maxRetries - attempt = r + 1 :=
      ⟨cfg.maxRetries - attempt - 1, by omega⟩
    rw [hr]
    cases hc : retryable e with
    | true =>
      rw [go_eq_err_retry cfg step attempt r e h hc]
      constructor
      · simp [hlt]
      · rintro (hf | hge2)
        · exact absurd hf (by decide)
        · omega
    | false =>
      rw [go_eq_err_stop cfg step attempt r e h hc]
      constructor
      · simp [hc]
      · intro _
        rfl
  · have hr : cfg.maxRetries - attempt = 0 := by omega
    rw [hr, go_eq_err_zero cfg step attempt e h]
    constructor
    · constructor
      · intro hf
        exact absurd rfl hf
      · rintro ⟨-, hlt2⟩
        omega
    · intro _
      rfl

/-- Witness for retry_condition_amended: a 2xx response with a malformed JSON
body on attempt 1 is not retried and propagates at once. -/
theorem retry_condition_amended_witness :
    ((fetchWithRetry cfgDefault (fun n => mockAttempt (oracleBadBody n)) 0).2 ≠ [] ↔
      (retryable badJsonError = true ∧ 0 < cfgDefault.maxRetries)) ∧
    (retryable badJsonError = false ∨ cfgDefault.maxRetries ≤ 0 →
      fetchWithRetry cfgDefault (fun n => mockAttempt (oracleBadBody n)) 0 =
        (Except.error badJsonError, [])) :=
  retry_condition_amended cfgDefault (fun n => mockAttempt (oracleBadBody n)) 0 badJsonError
    (by rfl)

/-- Claim C6 counterexample: with the default configuration an abort-kind
failure (the kind a triggered cancellation signal produces,
`error.name === "AbortError"`) is classified as a timeout and retried twice
with backoff delays 1000 ms and 2000 ms, rather than failing the operation
with a never-retried cancellation error. -/
theorem cancellation_retried_counterexample :
    mockFetchWithRetry cfgDefault oracleAbort 0 =
      (Except.error abortError, [1000, 2000]) := by rfl

/-- Claim C6 (amended): complete accepts no caller-supplied cancellation
signal (its only input is the message list, and the AbortController belongs
to the internal timeout); an AbortError failure with retries remaining is
retried after the backoff delay instead of ending the operation as a
cancellation. -/
theorem abort_retried_amended (cfg : RetryConfig) (step : Nat → Except JsError α)
    (attempt : Nat) (e : JsError) (h1 : step attempt = Except.error e)
    (h2 : e.name = "AbortError") (h3 : attempt < cfg.maxRetries) :
    fetchWithRetry cfg step attempt =
      ((fetchWithRetry cfg step (attempt + 1)).1,
       cfg.retryDelayMs * 2 ^ attempt :: (fetchWithRetry cfg step (attempt + 1)).2) := by
  unfold fetchWithRetry
  obtain ⟨r, hr⟩ : ∃ r, cfg.maxRetries - attempt = r + 1 :=
    ⟨cfg.maxRetries - attempt - 1, by omega⟩
  have hr2 : cfg.maxRetries - (attempt + 1) = r := by omega
  rw [hr, hr2]
  exact go_eq_err_retry cfg step attempt r e h1 (by simp [retryable, isTimeout, h2])

/-- Witness for abort_retried_amended: the first aborted attempt is retried. -/
theorem abort_retried_amended_witness :
    fetchWithRetry cfgDefault (fun n => mockAttempt (oracleAbort n)) 0 =
      ((fetchWithRetry cfgDefault (fun n => mockAttempt (oracleAbort n)) 1).1,
       cfgDefault.retryDelayMs * 2 ^ 0 ::
         (fetchWithRetry cfgDefault (fun n => mockAttempt (oracleAbort n)) 1).2) :=
  abort_retried_amended cfgDefault (fun n => mockAttempt (oracleAbort n)) 0 abortError
    (by rfl) (by decide) (by decide)

/-- Claim C7: for both adapter variants the number of retries is bounded by
maxRetries (default 2, hence at most 3 attempts), the delay before retry k
(0-indexed) is retryDelayMs * 2^k with no jitter (defaults: 1000 ms then
2000 ms), and the surfaced error on failure is the error of the last
attempt performed. -/
theorem retry_backoff_bounds (cfg : RetryConfig)
    (om : Nat → FetchOutcome MockBody) (oo : Nat → FetchOutcome OllamaBody) :
    ((mockFetchWithRetry cfg om 0).2.length ≤ cfg.maxRetries ∧
     (mockFetchWithRetry cfg om 0).2 =
       (List.range (mockFetchWithRetry cfg om 0).2.length).map
         (fun k => cfg.retryDelayMs * 2 ^ k) ∧
     ∀ e, (mockFetchWithRetry cfg om 0).1 = Except.error e →
       mockAttempt (om (mockFetchWithRetry cfg om 0).2.length) = Except.error e) ∧
    ((ollamaFetchWithRetry cfg oo 0).2.length ≤ cfg.maxRetries ∧
     (ollamaFetchWithRetry cfg oo 0).2 =
       (List.range (ollamaFetchWithRetry cfg oo 0).2.length).map
         (fun k => cfg.retryDelayMs * 2 ^ k) ∧
     ∀ e, (ollamaFetchWithRetry cfg oo 0).1 = Except.error e →
       ollamaAttempt (oo (ollamaFetchWithRetry cfg oo 0).2.length) = Except.error e) ∧
    cfgDefault.maxRetries = 2 ∧ cfgDefault.retryDelayMs = 1000 ∧
    mockFetchWithRetry cfgDefault oracle500 0 =
      (Except.error ⟨"Error", "Mock LLM returned 500"⟩, [1000, 2000]) := by
  refine ⟨⟨?_, ?_, ?_⟩, ⟨?_, ?_, ?_⟩, by decide, by decide, by rfl⟩
  · exact (go_spec cfg (fun n => mockAttempt (om n)) cfg.maxRetries 0).1
  · have h2 := (go_spec cfg (fun n => mockAttempt (om n)) cfg.maxRetries 0).2.1
    simpa [Nat.zero_add] using h2
  · intro e he
    have h3 := (go_spec cfg (fun n => mockAttempt (om n)) cfg.maxRetries 0).2.2 e he
    simpa [Nat.zero_add] using h3
  · exact (go_spec cfg (fun n => ollamaAttempt (oo n)) cfg.maxRetries 0).1
  · have h2 := (go_spec cfg (fun n => ollamaAttempt (oo n)) cfg.maxRetries 0).2.1
    simpa [Nat.zero_add] using h2
  · intro e he
    have h3 := (go_spec cfg (fun n => ollamaAttempt (oo n)) cfg.maxRetries 0).2.2 e he
    simpa [Nat.zero_add] using h3

/-- Witness for retry_backoff_bounds: with every attempt answering HTTP 500,
at most maxRetries retries happen and the surfaced error is the last
attempt's. -/
theorem retry_backoff_bounds_witness :
    (mockFetchWithRetry cfgDefault oracle500 0).2.length ≤ cfgDefault.maxRetries ∧
    mockAttempt (oracle500 (mockFetchWithRetry cfgDefault oracle500 0).2.length) =
      Except.error ⟨"Error", "Mock LLM returned 500"⟩ :=
  ⟨(retry_backoff_bounds cfgDefault oracle500 (fun _ => FetchOutcome.abortTimeout)).1.1,
   (retry_backoff_bounds cfgDefault oracle500 (fun _ => FetchOutcome.abortTimeout)).1.2.2
     ⟨"Error", "Mock LLM returned 500"⟩ (by rfl)⟩

/-- Claim C9: on a 2xx response whose JSON body lacks a completion field, the
mock adapter resolves successfully with an absent completion value, while the
Ollama adapter throws its normalization error when neither of its two reply
fields is present. -/
theorem missing_completion_fields (status : Nat) (h1 : 200 ≤ status) (h2 : status ≤ 299) :
    mockAttempt (FetchOutcome.response status ⟨none⟩) = Except.ok none ∧
    ollamaAttempt (FetchOutcome.response status ⟨none, none⟩) =
      Except.error ollamaMissingError := by
  have hok : responseOk status = true := by
    simp only [responseOk, Bool.and_eq_true, decide_eq_true_eq]
    exact ⟨h1, h2⟩
  constructor
  · simp [mockAttempt, hok]
  · simp [ollamaAttempt, hok, jsOrStr, jsTruthy]

/-- Witness for missing_completion_fields at status 200. -/
theorem missing_completion_fields_witness :
    mockAttempt (FetchOutcome.response 200 ⟨none⟩) = Except.ok none ∧
    ollamaAttempt (FetchOutcome.response 200 ⟨none, none⟩) =
      Except.error ollamaMissingError :=
  missing_completion_fields 200 (by decide) (by decide)

/-- Claim C5 counterexample: create two conversations, delete the first, then
restart the service; initCounter reseeds the counter from the count of the
surviving rows (not the historical total), so the next creation reuses
sequence number 2 and two distinct conversations carry the title
"Conversation #2". -/
theorem title_counter_restart_counterexample :
    convC.title = "Conversation #2" ∧
    deleteConversation svcC.store convB.id = Except.ok storeD ∧
    convF.title = "Conversation #2" ∧
    convC.id ≠ convF.id :=
  ⟨by decide, by rfl, by decide, by decide⟩

/-- Claim C5 (amended): the title counter is seeded at startup from the count
of currently existing conversations and increases by one on every creation
while deletion leaves it untouched, so within one service lifetime three
creations produce distinct strictly increasing sequence numbers regardless of
intervening deletions; across a restart preceded by deletions the numbers can
repeat. -/
theorem title_counter_amended (svc : SvcState) (d : Nat) (svc2 : SvcState)
    (hdel : SvcState.deleteConv (createConversation svc).1 d = Except.ok svc2) :
    (initCounter svc.store).counter = svc.store.conversations.length ∧
    ((createConversation svc).2).title = "Conversation #" ++ toString (svc.counter + 1) ∧
    ((createConversation svc2).2).title = "Conversation #" ++ toString (svc.counter + 2) ∧
    ((createConversation (createConversation svc2).1).2).title =
      "Conversation #" ++ toString (svc.counter + 3) ∧
    svc.counter + 1 < svc.counter + 2 ∧ svc.counter + 2 < svc.counter + 3 := by
  have hc2 : svc2.counter = svc.counter + 1 := by
    unfold SvcState.deleteConv at hdel
    cases hdd : deleteConversation (createConversation svc).1.store d with
    | error e =>
      rw [hdd] at hdel
      exact absurd hdel (by simp [Except.map])
    | ok st =>
      rw [hdd] at hdel
      simp only [Except.map] at hdel
      have h9 := Except.ok.inj hdel
      have h8 := congrArg SvcState.counter h9
      exact h8.symm
  refine ⟨rfl, rfl, ?_, ?_, by omega, by omega⟩
  · show "Conversation #" ++ toString (svc2.counter + 1) = _
    rw [hc2]
  · show "Conversation #" ++ toString ((createConversation svc2).1.counter + 1) = _
    show "Conversation #" ++ toString (svc2.counter + 1 + 1) = _
    rw [hc2]

/-- Witness for title_counter_amended on the concrete two-conversation
service state. -/
theorem title_counter_amended_witness :
    (initCounter svcC.store).counter = svcC.store.conversations.length ∧
    ((createConversation svcC).2).title = "Conversation #" ++ toString (svcC.counter + 1) ∧
    ((createConversation svcC2).2).title = "Conversation #" ++ toString (svcC.counter + 2) ∧
    ((createConversation (createConversation svcC2).1).2).title =
      "Conversation #" ++ toString (svcC.counter + 3) ∧
    svcC.counter + 1 < svcC.counter + 2 ∧ svcC.counter + 2 < svcC.counter + 3 :=
  title_counter_amended svcC 0 svcC2 (by rfl)

/-- Claim C8 counterexample: the boundary error handler has no NotFound
branch — the 'Conversation not found' error receives exactly the opaque 500
internal-error response, the same as an arbitrary unclassified failure. -/
theorem notfound_opaque_counterexample :
    errorHandler (AppError.js notFoundError) = ⟨500, "Internal server error"⟩ ∧
    errorHandler (AppError.js ⟨"Error", "some unclassified failure"⟩) =
      ⟨500, "Internal server error"⟩ :=
  ⟨by decide, by decide⟩

/-- Claim C8 (amended): getConversation and sendMessage fail with a
'Conversation not found' error for an unknown conversation id, and
deleteConversation fails with the store's record-not-found error; but the
boundary error handler, having no NotFound branch, maps the NotFound error to
the same opaque 500 internal-error response used for unclassified failures. -/
theorem notfound_handling_amended (s : Store) (cid : Nat) (cursor : Option Nat)
    (limit : Nat) (content : String) (adapter : List ChatMsg → Except JsError String)
    (habs : s.conversations.find? (fun c => c.id == cid) = none) :
    getConversation s cid cursor limit = Except.error notFoundError ∧
    sendMessage s cid content adapter = (s, Except.error notFoundError) ∧
    deleteConversation s cid = Except.error prismaDeleteMissing ∧
    errorHandler (AppError.js notFoundError) = ⟨500, "Internal server error"⟩ := by
  have hany : s.conversations.any (fun c => c.id == cid) = false := by
    rw [List.any_eq_false]
    intro x hx
    exact List.find?_eq_none.mp habs x hx
  refine ⟨?_, ?_, ?_, by decide⟩
  · unfold getConversation
    rw [habs]
  · unfold sendMessage
    rw [habs]
  · unfold deleteConversation
    rw [hany]
    simp

/-- Witness for notfound_handling_amended on the empty store. -/
theorem notfound_handling_amended_witness :
    getConversation emptyStore 5 none 20 = Except.error notFoundError ∧
    sendMessage emptyStore 5 "hi" okAdapter = (emptyStore, Except.error notFoundError) ∧
    deleteConversation emptyStore 5 = Except.error prismaDeleteMissing ∧
    errorHandler (AppError.js notFoundError) = ⟨500, "Internal server error"⟩ :=
  notfound_handling_amended emptyStore 5 none 20 "hi" okAdapter (by rfl)

-- sendMessage unfolding on the failure and success paths.

theorem sendMessage_fail_eq (s : Store) (cid : Nat) (content : String) (conv : Convo)
    (adapter : List ChatMsg → Except JsError String) (e : JsError)
    (hconv : s.conversations.find? (fun c => c.id == cid) = some conv)
    (hfail : adapter (historyFor s cid content) = Except.error e) :
    sendMessage s cid content adapter =
      ({ conversations := s.conversations
         messages := s.messages ++ [userMsgOf s cid content]
         clock := s.clock + 1 }, Except.error e) := by
  unfold sendMessage
  rw [hconv, hfail]

theorem sendMessage_ok_eq (s : Store) (cid : Nat) (content : String) (conv : Convo)
    (adapter : List ChatMsg → Except JsError String) (completion : String)
    (hconv : s.conversations.find? (fun c => c.id == cid) = some conv)
    (hok : adapter (historyFor s cid content) = Except.ok completion) :
    sendMessage s cid content adapter =
      ({ conversations := s.conversations.map (fun c =>
           if c.id == cid then { c with lastMessageAt := some (s.clock + 1) } else c)
         messages := (s.messages ++ [userMsgOf s cid content]) ++
           [{ id := s.clock + 1, conversationId := cid, role := "assistant",
              content := completion, createdAt := s.clock + 1 }]
         clock := s.clock + 2 },
       Except.ok (userMsgOf s cid content,
         { id := s.clock + 1, conversationId := cid, role := "assistant",
           content := completion, createdAt := s.clock + 1 })) := by
  unfold sendMessage
  rw [hconv, hok]

-- The desc scan of the conversation after the failure path: the orphaned
-- user message leads, followed by the prior messages newest-first.
theorem findManyDesc_after_fail (s : Store) (cid : Nat) (content : String) :
    findManyDesc
        { conversations := s.conversations
          messages := s.messages ++ [userMsgOf s cid content]
          clock := s.clock + 1 } cid =
      userMsgOf s cid content :: (convMsgsAsc s cid).reverse := by
  unfold findManyDesc convMsgsAsc
  rw [List.filter_append]
  simp [userMsgOf]

-- The head of the desc scan is on the first (cursorless) page.
theorem mem_first_page (s : Store) (cid : Nat) (limit : Nat) (m : Msg) (t : List Msg)
    (hff : findManyDesc s cid = m :: t) (hlim : 1 ≤ limit) :
    m ∈ (pageMessagesOf s cid none limit).reverse := by
  obtain ⟨l, rfl⟩ : ∃ l, limit = l + 1 := ⟨limit - 1, by omega⟩
  have hfe : fetchedOf s cid none (l + 1) = m :: t.take (l + 1) := by
    unfold fetchedOf fetchFiltered
    rw [hff]
    rfl
  rw [List.mem_reverse]
  unfold pageMessagesOf
  rw [hfe]
  split
  · rw [List.take_succ_cons]
    exact List.mem_cons_self _ _
  · exact List.mem_cons_self _ _

/-- Claim C1: when the adapter call fails, sendMessage leaves the user
message persisted (retrievable on the first page of getConversation),
creates no assistant message, and leaves every conversation record — in
particular lastMessageAt — unchanged; on success it returns both persisted
messages with the assistant timestamp at least the user timestamp. -/
theorem sendMessage_atomicity (s : Store) (cid : Nat) (content : String)
    (conv : Convo) (adapter : List ChatMsg → Except JsError String)
    (hconv : s.conversations.find? (fun c => c.id == cid) = some conv)
    (hcontent : content ≠ "") :
    (∀ e, adapter (historyFor s cid content) = Except.error e →
      (sendMessage s cid content adapter).2 = Except.error e ∧
      (sendMessage s cid content adapter).1.messages =
        s.messages ++ [userMsgOf s cid content] ∧
      (sendMessage s cid content adapter).1.conversations = s.conversations ∧
      ∃ page, getConversation (sendMessage s cid content adapter).1 cid none 20 =
          Except.ok page ∧ userMsgOf s cid content ∈ page.messages) ∧
    (∀ completion, adapter (historyFor s cid content) = Except.ok completion →
      ∃ u a, (sendMessage s cid content adapter).2 = Except.ok (u, a) ∧
        u ∈ (sendMessage s cid content adapter).1.messages ∧
        a ∈ (sendMessage s cid content adapter).1.messages ∧
        u.role = "user" ∧ u.content = content ∧ a.role = "assistant" ∧
        a.content = completion ∧ u.createdAt ≤ a.createdAt) := by
  constructor
  · intro e hfail
    rw [sendMessage_fail_eq s cid content conv adapter e hconv hfail]
    refine ⟨rfl, rfl, rfl, ?_⟩
    have hconv2 : ({ conversations := s.conversations
                     messages := s.messages ++ [userMsgOf s cid content]
                     clock := s.clock + 1 } : Store).conversations.find?
        (fun c => c.id == cid) = some conv := hconv
    have hpage : getConversation
        { conversations := s.conversations
          messages := s.messages ++ [userMsgOf s cid content]
          clock := s.clock + 1 } cid none 20 =
        Except.ok
          { id := conv.id
            title := conv.title
            messages := (pageMessagesOf
              { conversations := s.conversations
                messages := s.messages ++ [userMsgOf s cid content]
                clock := s.clock + 1 } cid none 20).reverse
            pageInfo :=
              { nextCursor := nextCursorOf
                  { conversations := s.conversations
                    messages := s.messages ++ [userMsgOf s cid content]
                    clock := s.clock + 1 } cid none 20
                prevCursor := prevCursorOf
                  { conversations := s.conversations
                    messages := s.messages ++ [userMsgOf s cid content]
                    clock := s.clock + 1 } cid none 20 } } := by
      unfold getConversation
      rw [hconv2]
    exact ⟨_, hpage,
      mem_first_page _ cid 20 _ _ (findManyDesc_after_fail s cid content) (by omega)⟩
  · intro completion hok
    rw [sendMessage_ok_eq s cid content conv adapter completion hconv hok]
    refine ⟨userMsgOf s cid content,
      { id := s.clock + 1, conversationId := cid, role := "assistant",
        content := completion, createdAt := s.clock + 1 },
      rfl, ?_, ?_, rfl, rfl, rfl, rfl, Nat.le_succ s.clock⟩
    · simp
    · simp

/-- Witness for sendMessage_atomicity: one conversation with one prior
exchange, a failing adapter and a succeeding adapter. -/
theorem sendMessage_atomicity_witness :
    ((sendMessage exStoreW 100 "Hello" failAdapter).2 = Except.error ⟨"Error", "LLM down"⟩ ∧
     (sendMessage exStoreW 100 "Hello" failAdapter).1.messages =
       exStoreW.messages ++ [userMsgOf exStoreW 100 "Hello"] ∧
     (sendMessage exStoreW 100 "Hello" failAdapter).1.conversations =
       exStoreW.conversations ∧
     ∃ page, getConversation (sendMessage exStoreW 100 "Hello" failAdapter).1 100 none 20 =
         Except.ok page ∧ userMsgOf exStoreW 100 "Hello" ∈ page.messages) ∧
    (∃ u a, (sendMessage exStoreW 100 "Hello" okAdapter).2 = Except.ok (u, a) ∧
      u ∈ (sendMessage exStoreW 100 "Hello" okAdapter).1.messages ∧
      a ∈ (sendMessage exStoreW 100 "Hello" okAdapter).1.messages ∧
      u.role = "user" ∧ u.content = "Hello" ∧ a.role = "assistant" ∧
      a.content = "Hi there" ∧ u.createdAt ≤ a.createdAt) :=
  ⟨(sendMessage_atomicity exStoreW 100 "Hello" exConv failAdapter (by rfl) (by decide)).1
      ⟨"Error", "LLM down"⟩ (by rfl),
   (sendMessage_atomicity exStoreW 100 "Hello" exConv okAdapter (by rfl) (by decide)).2
      "Hi there" (by rfl)⟩

/-- Claim C10: listConversations derives each lastMessageAt annotation from
the conversation's newest stored message of any role; after a sendMessage
whose adapter call failed, the listing shows the orphaned user message's
timestamp even though the stored lastMessageAt column was never advanced. -/
theorem listConversations_lastMessageAt (s : Store) (cid : Nat) (content : String)
    (conv : Convo) (adapter : List ChatMsg → Except JsError String) (e : JsError)
    (hconv : s.conversations.find? (fun c => c.id == cid) = some conv)
    (hfail : adapter (historyFor s cid content) = Except.error e) :
    (sendMessage s cid content adapter).1.conversations = s.conversations ∧
    (userMsgOf s cid content).createdAt = s.clock ∧
    ConvSummary.mk conv.id conv.title conv.createdAt (some s.clock) ∈
      listConversations (sendMessage s cid content adapter).1 := by
  have hcid : conv.id = cid := by
    have h0 := List.find?_some hconv
    simpa using h0
  have hmem : conv ∈ s.conversations := List.mem_of_find?_eq_some hconv
  rw [sendMessage_fail_eq s cid content conv adapter e hconv hfail]
  refine ⟨rfl, rfl, ?_⟩
  unfold listConversations
  rw [List.mem_map]
  refine ⟨conv, by simp [hmem], ?_⟩
  have hdesc := findManyDesc_after_fail s cid content
  rw [hcid, hdesc]
  rfl

/-- Witness for listConversations_lastMessageAt on the concrete store. -/
theorem listConversations_lastMessageAt_witness :
    (sendMessage exStoreW 100 "Hello" failAdapter).1.conversations =
      exStoreW.conversations ∧
    (userMsgOf exStoreW 100 "Hello").createdAt = exStoreW.clock ∧
    ConvSummary.mk exConv.id exConv.title exConv.createdAt (some exStoreW.clock) ∈
      listConversations (sendMessage exStoreW 100 "Hello" failAdapter).1 :=
  listConversations_lastMessageAt exStoreW 100 "Hello" exConv failAdapter
    ⟨"Error", "LLM down"⟩ (by rfl) (by rfl)

-- Pagination machinery.

theorem getConversation_ok (s : Store) (cid : Nat) (cursor : Option Nat) (limit : Nat)
    (conv : Convo) (hconv : s.conversations.find? (fun c => c.id == cid) = some conv) :
    getConversation s cid cursor limit =
      Except.ok
        { id := conv.id
          title := conv.title
          messages := (pageMessagesOf s cid cursor limit).reverse
          pageInfo :=
            { nextCursor := nextCursorOf s cid cursor limit
              prevCursor := prevCursorOf s cid cursor limit } } := by
  unfold getConversation
  rw [hconv]

theorem head?_mem_of_eq (l : List Msg) (a : Msg) (h : l.head? = some a) : a ∈ l := by
  cases l with
  | nil => simp at h
  | cons x xs =>
    simp at h
    subst h
    exact List.mem_cons_self x xs

-- In a strictly descending list, filtering by `id ≤ m.id` keeps exactly
-- the suffix starting at m.
theorem filter_le_suffix (D1 t : List Msg) (m : Msg)
    (hp : (D1 ++ m :: t).Pairwise (fun a b => b.id < a.id)) :
    (D1 ++ m :: t).filter (fun x => x.id ≤ m.id) = m :: t := by
  rw [List.pairwise_append] at hp
  obtain ⟨hp1, hp2, hcross⟩ := hp
  rw [List.filter_append]
  have h1 : D1.filter (fun x => decide (x.id ≤ m.id)) = [] := by
    rw [List.filter_eq_nil_iff]
    intro a ha
    have hma := hcross a ha m (List.mem_cons_self m t)
    simp only [decide_eq_true_eq]
    omega
  have h2 : (m :: t).filter (fun x => decide (x.id ≤ m.id)) = m :: t := by
    rw [List.filter_eq_self]
    intro b hb
    rcases List.mem_cons.mp hb with hbm | hbt
    · subst hbm
      simp
    · have hbl := (List.pairwise_cons.mp hp2).1 b hbt
      simp only [decide_eq_true_eq]
      omega
  rw [h1, h2]
  rfl

-- When the filtered scan holds at most `limit` rows, the page is all of
-- them and nextCursor is null.
theorem page_last (s : Store) (cid : Nat) (cursor : Option Nat) (limit : Nat) (D2 : List Msg)
    (hfilt : fetchFiltered s cid cursor = D2) (hD : D2.length ≤ limit) :
    pageMessagesOf s cid cursor limit = D2 ∧ nextCursorOf s cid cursor limit = none := by
  have hfe : fetchedOf s cid cursor limit = D2 := by
    unfold fetchedOf
    rw [hfilt]
    exact List.take_of_length_le (by omega)
  have hhm : hasMoreOf s cid cursor limit = false := by
    unfold hasMoreOf
    rw [hfe]
    simp only [decide_eq_false_iff_not]
    omega
  constructor
  · unfold pageMessagesOf
    rw [hhm, hfe]
    simp
  · unfold nextCursorOf
    rw [hhm]
    simp

-- When more than `limit` rows are visible, the page is the first `limit`
-- and nextCursor is the id of the first excluded row.
theorem page_more (s : Store) (cid : Nat) (cursor : Option Nat) (limit : Nat) (D2 : List Msg)
    (hfilt : fetchFiltered s cid cursor = D2) (hD : limit < D2.length) :
    pageMessagesOf s cid cursor limit = D2.take limit ∧
    nextCursorOf s cid cursor limit = (D2[limit]?).map (fun m => m.id) := by
  have hfe : fetchedOf s cid cursor limit = D2.take (limit + 1) := by
    unfold fetchedOf
    rw [hfilt]
  have hhm : hasMoreOf s cid cursor limit = true := by
    unfold hasMoreOf
    rw [hfe]
    simp only [List.length_take, decide_eq_true_eq]
    omega
  constructor
  · unfold pageMessagesOf
    rw [hhm, hfe]
    simp only [if_true, List.take_take]
    rw [Nat.min_eq_left (Nat.le_succ limit)]
  · unfold nextCursorOf
    rw [hhm, hfe]
    simp only [if_true, List.getElem?_take]
    rw [if_pos (Nat.lt_succ_self limit)]

-- A nonempty filtered scan puts its newest row at the head of the page.
theorem pageMessagesOf_cons (s : Store) (cid : Nat) (cursor : Option Nat) (limit : Nat)
    (w : Msg) (t : List Msg)
    (hfilt : fetchFiltered s cid cursor = w :: t) (hlim : 1 ≤ limit) :
    ∃ t2, pageMessagesOf s cid cursor limit = w :: t2 := by
  obtain ⟨l, rfl⟩ : ∃ l, limit = l + 1 := ⟨limit - 1, by omega⟩
  have hfe : fetchedOf s cid cursor (l + 1) = w :: t.take (l + 1) := by
    unfold fetchedOf
    rw [hfilt]
    rfl
  unfold pageMessagesOf
  rw [hfe]
  split
  · exact ⟨(t.take (l + 1)).take l, List.take_succ_cons⟩
  · exact ⟨t.take (l + 1), rfl⟩

-- The pagination walk: with a sorted scan, following nextCursor from any
-- cursor whose filtered view is the suffix D2 yields exactly D2.
theorem paginate_join_aux (s : Store) (cid : Nat) (limit : Nat) (conv : Convo)
    (hconv : s.conversations.find? (fun c => c.id == cid) = some conv)
    (hlim : 1 ≤ limit)
    (hp : (findManyDesc s cid).Pairwise (fun a b => b.id < a.id)) :
    ∀ fuel cursor D1 D2,
      findManyDesc s cid = D1 ++ D2 →
      fetchFiltered s cid cursor = D2 →
      D2.length < fuel →
      ((paginate s cid limit fuel cursor).map List.reverse).flatten = D2 := by
  intro fuel
  induction fuel with
  | zero =>
    intro cursor D1 D2 hsplit hfilt hlen
    exact absurd hlen (Nat.not_lt_zero _)
  | succ f ih =>
    intro cursor D1 D2 hsplit hfilt hlen
    by_cases hD : D2.length ≤ limit
    · obtain ⟨hpg, hnc⟩ := page_last s cid cursor limit D2 hfilt hD
      simp only [paginate, getConversation_ok s cid cursor limit conv hconv, hnc, hpg,
        List.map_cons, List.map_nil, List.flatten_cons, List.flatten_nil,
        List.reverse_reverse, List.append_nil]
    · push_neg at hD
      obtain ⟨hpg, hnc⟩ := page_more s cid cursor limit D2 hfilt hD
      cases hdrop : D2.drop limit with
      | nil =>
        exfalso
        have hdl : (D2.drop limit).length = D2.length - limit := List.length_drop limit D2
        rw [hdrop] at hdl
        simp at hdl
        omega
      | cons m2 t2 =>
        have hget : D2[limit]? = some m2 := by
          rw [← List.head?_drop, hdrop]
          rfl
        have hnc2 : nextCursorOf s cid cursor limit = some m2.id := by
          rw [hnc, hget]
          rfl
        have hsplit2 : findManyDesc s cid = (D1 ++ D2.take limit) ++ (m2 :: t2) := by
          rw [hsplit, List.append_assoc]
          congr 1
          rw [← hdrop, List.take_append_drop]
        have hfilt2 : fetchFiltered s cid (some m2.id) = m2 :: t2 := by
          show (findManyDesc s cid).filter (fun m => m.id ≤ m2.id) = m2 :: t2
          rw [hsplit2]
          exact filter_le_suffix (D1 ++ D2.take limit) t2 m2 (hsplit2 ▸ hp)
        have hlen2 : (m2 :: t2).length < f := by
          have hdl : (D2.drop limit).length = D2.length - limit := List.length_drop limit D2
          rw [hdrop] at hdl
          simp only [List.length_cons] at hdl ⊢
          omega
        have hrest := ih (some m2.id) (D1 ++ D2.take limit) (m2 :: t2) hsplit2 hfilt2 hlen2
        simp only [paginate, getConversation_ok s cid cursor limit conv hconv, hnc2, hpg,
          List.map_cons, List.flatten_cons, List.reverse_reverse]
        rw [hrest, ← hdrop, List.take_append_drop]

/-- Claim C2: with ids sorted consistently with creation order, repeatedly
following nextCursor from the cursorless page yields every message of the
conversation exactly once with no duplicates or gaps (each page oldest-first,
pages moving strictly older: un-reversing each page and concatenating
reproduces the whole desc scan); and a message appended after a cursor was
issued neither appears in nor shifts the page that cursor fetches. -/
theorem pagination_complete (s : Store) (cid : Nat) (limit fuel : Nat) (conv : Convo)
    (hconv : s.conversations.find? (fun c => c.id == cid) = some conv)
    (hsort : SortedAscIds (convMsgsAsc s cid))
    (hlim : 1 ≤ limit)
    (hfuel : (convMsgsAsc s cid).length < fuel) :
    ((paginate s cid limit fuel none).map List.reverse).flatten = findManyDesc s cid ∧
    (∀ m c, m.conversationId = cid → c < m.id →
      (getConversation (appendMsg s m) cid (some c) limit).map
          (fun p => (p.messages, p.pageInfo.nextCursor)) =
        (getConversation s cid (some c) limit).map
          (fun p => (p.messages, p.pageInfo.nextCursor))) := by
  have hp : (findManyDesc s cid).Pairwise (fun a b => b.id < a.id) := by
    unfold findManyDesc
    rw [List.pairwise_reverse]
    exact hsort
  constructor
  · exact paginate_join_aux s cid limit conv hconv hlim hp fuel none [] (findManyDesc s cid)
      (by simp) (by rfl) (by simpa [findManyDesc] using hfuel)
  · intro m c hm hc
    have hdesc : findManyDesc (appendMsg s m) cid = m :: findManyDesc s cid := by
      unfold findManyDesc convMsgsAsc appendMsg
      rw [List.filter_append]
      simp [hm]
    have hfilt : fetchFiltered (appendMsg s m) cid (some c) = fetchFiltered s cid (some c) := by
      show (findManyDesc (appendMsg s m) cid).filter (fun x => x.id ≤ c) =
        (findManyDesc s cid).filter (fun x => x.id ≤ c)
      rw [hdesc]
      rw [List.filter_cons_of_neg]
      simp only [decide_eq_true_eq]
      omega
    have hfe : fetchedOf (appendMsg s m) cid (some c) limit = fetchedOf s cid (some c) limit := by
      unfold fetchedOf
      rw [hfilt]
    have hhm : hasMoreOf (appendMsg s m) cid (some c) limit =
        hasMoreOf s cid (some c) limit := by
      unfold hasMoreOf
      rw [hfe]
    have hpm : pageMessagesOf (appendMsg s m) cid (some c) limit =
        pageMessagesOf s cid (some c) limit := by
      unfold pageMessagesOf
      rw [hhm, hfe]
    have hncr : nextCursorOf (appendMsg s m) cid (some c) limit =
        nextCursorOf s cid (some c) limit := by
      unfold nextCursorOf
      rw [hhm, hfe]
    have hconv2 : (appendMsg s m).conversations.find? (fun c2 => c2.id == cid) = some conv :=
      hconv
    rw [getConversation_ok (appendMsg s m) cid (some c) limit conv hconv2,
      getConversation_ok s cid (some c) limit conv hconv]
    simp [Except.map, hpm, hncr]

/-- Witness for pagination_complete: the 4-message conversation walked with
limit 2, and stability of the cursor-2 page under appending message id 9. -/
theorem pagination_complete_witness :
    ((paginate exStore4 100 2 5 none).map List.reverse).flatten = findManyDesc exStore4 100 ∧
    (getConversation (appendMsg exStore4 mW) 100 (some 2) 2).map
        (fun p => (p.messages, p.pageInfo.nextCursor)) =
      (getConversation exStore4 100 (some 2) 2).map
        (fun p => (p.messages, p.pageInfo.nextCursor)) :=
  ⟨(pagination_complete exStore4 100 2 5 exConv (by rfl)
      (by unfold SortedAscIds; decide) (by decide) (by decide)).1,
   (pagination_complete exStore4 100 2 5 exConv (by rfl)
      (by unfold SortedAscIds; decide) (by decide) (by decide)).2
     mW 2 (by rfl) (by decide)⟩

/-- Claim C4 counterexample: on the 4-message conversation with limit 2 and
cursor 2, the page is [1, 2] (oldest-first) with newest message id 2, and the
returned prevCursor is 2 — the supplied cursor itself — so the page fetched
with prevCursor is the same call and its newest message is not strictly newer
than the current page's newest. -/
theorem prevCursor_forward_counterexample :
    getConversation exStore4 100 (some 2) 2 =
      Except.ok
        { id := 100
          title := "Conversation #1"
          messages := [exMsg1, exMsg2]
          pageInfo := { nextCursor := some 0, prevCursor := some 2 } } := by rfl

/-- Claim C4 (amended): prevCursor is only computed when a cursor was
supplied (always null on cursorless calls); it is the id of the message
immediately newer than the current page's oldest entry, null exactly when no
newer message than that entry exists; fetching with it yields a page whose
newest message is that very message — strictly newer than the current page's
OLDEST message, but (for limit ≥ 2 it is a message of the current page) not
in general strictly newer than the current page's newest. -/
theorem prevCursor_amended (s : Store) (cid : Nat) (c limit : Nat) (conv : Convo)
    (oldest : Msg)
    (hconv : s.conversations.find? (fun c2 => c2.id == cid) = some conv)
    (hsort : SortedAscIds (convMsgsAsc s cid))
    (hlim : 1 ≤ limit)
    (hold : (pageMessagesOf s cid (some c) limit).getLast? = some oldest) :
    getConversation s cid (some c) limit =
      Except.ok
        { id := conv.id
          title := conv.title
          messages := (pageMessagesOf s cid (some c) limit).reverse
          pageInfo :=
            { nextCursor := nextCursorOf s cid (some c) limit
              prevCursor := prevCursorOf s cid (some c) limit } } ∧
    prevCursorOf s cid none limit = none ∧
    (prevCursorOf s cid (some c) limit = none ↔
      ∀ m ∈ convMsgsAsc s cid, m.id ≤ oldest.id) ∧
    (∀ p, prevCursorOf s cid (some c) limit = some p →
      oldest.id < p ∧
      ∃ w t2, pageMessagesOf s cid (some p) limit = w :: t2 ∧ w.id = p ∧ oldest.id < w.id) := by
  have hp : (findManyDesc s cid).Pairwise (fun a b => b.id < a.id) := by
    unfold findManyDesc
    rw [List.pairwise_reverse]
    exact hsort
  have hpc : prevCursorOf s cid (some c) limit =
      (((convMsgsAsc s cid).filter (fun m => oldest.id < m.id)).head?).map (fun m => m.id) := by
    unfold prevCursorOf
    rw [hold]
  refine ⟨getConversation_ok s cid (some c) limit conv hconv, rfl, ?_, ?_⟩
  · rw [hpc, Option.map_eq_none', List.head?_eq_none_iff, List.filter_eq_nil_iff]
    constructor
    · intro h m hm
      have h2 := h m hm
      simp only [decide_eq_true_eq] at h2
      omega
    · intro h m hm
      simp only [decide_eq_true_eq]
      have h3 := h m hm
      omega
  · intro p hpeq
    rw [hpc] at hpeq
    cases ho : ((convMsgsAsc s cid).filter (fun m => decide (oldest.id < m.id))).head? with
    | none =>
      rw [ho] at hpeq
      simp at hpeq
    | some w =>
      rw [ho] at hpeq
      simp only [Option.map_some'] at hpeq
      have hwp : w.id = p := Option.some.inj hpeq
      subst hwp
      have hwmem := head?_mem_of_eq _ _ ho
      have hwf := List.mem_filter.mp hwmem
      have hlt : oldest.id < w.id := by
        have h4 := hwf.2
        simpa using h4
      refine ⟨hlt, ?_⟩
      have hwd : w ∈ findManyDesc s cid := by
        unfold findManyDesc
        rw [List.mem_reverse]
        exact hwf.1
      obtain ⟨Dw1, Dw2, hsplitw⟩ := List.append_of_mem hwd
      have hfiltp : fetchFiltered s cid (some w.id) = w :: Dw2 := by
        show (findManyDesc s cid).filter (fun x => x.id ≤ w.id) = w :: Dw2
        rw [hsplitw]
        exact filter_le_suffix Dw1 Dw2 w (hsplitw ▸ hp)
      obtain ⟨t2, ht2⟩ := pageMessagesOf_cons s cid (some w.id) limit w Dw2 hfiltp hlim
      exact ⟨w, t2, ht2, rfl, hlt⟩

/-- Witness for prevCursor_amended on the 4-message conversation with cursor
2 and limit 2 (the page is [1, 2] oldest-first; prevCursor comes out 2). -/
theorem prevCursor_amended_witness :
    getConversation exStore4 100 (some 2) 2 =
      Except.ok
        { id := exConv.id
          title := exConv.title
          messages := (pageMessagesOf exStore4 100 (some 2) 2).reverse
          pageInfo :=
            { nextCursor := nextCursorOf exStore4 100 (some 2) 2
              prevCursor := prevCursorOf exStore4 100 (some 2) 2 } } ∧
    prevCursorOf exStore4 100 none 2 = none ∧
    (prevCursorOf exStore4 100 (some 2) 2 = none ↔
      ∀ m ∈ convMsgsAsc exStore4 100, m.id ≤ exMsg1.id) ∧
    (exMsg1.id < 2 ∧
      ∃ w t2, pageMessagesOf exStore4 100 (some 2) 2 = w :: t2 ∧ w.id = 2 ∧
        exMsg1.id < w.id) :=
  ⟨(prevCursor_amended exStore4 100 2 2 exConv exMsg1 (by rfl)
      (by unfold SortedAscIds; decide) (by decide) (by rfl)).1,
   (prevCursor_amended exStore4 100 2 2 exConv exMsg1 (by rfl)
      (by unfold SortedAscIds; decide) (by decide) (by rfl)).2.1,
   (prevCursor_amended exStore4 100 2 2 exConv exMsg1 (by rfl)
      (by unfold SortedAscIds; decide) (by decide) (by rfl)).2.2.1,
   (prevCursor_amended exStore4 100 2 2 exConv exMsg1 (by rfl)
      (by unfold SortedAscIds; decide) (by decide) (by rfl)).2.2.2 2 (by rfl)⟩
